import Mathlib

/-!
Verification of the eduko research-backend core against its specification.

The development shallowly embeds the Python modules the claims are about:

* `app/services/storage.py` — the two storage backends (`LocalStorage`,
  `S3Storage`) over an abstract key/value store;
* `app/services/writer.py` — jsonl appending, run-snapshot and final-submit
  persistence;
* `app/services/dv_runner.py` — the execution sandbox (`run_dv_code`,
  `run_dv_cells`) over a small statement language;
* `app/routers/sessions.py` — the session test-type lock;
* `app/routers/submissions_dv.py` — the notebook diff `_compute_nb_diff`;
* `app/routers/submissions_fe.py` — the FE snapshot route's diff gating.

Conventions: machine-level details not relevant to the claims (JSON
serialisation of journal records, PNG bytes, clock and UUID generation) are
abstracted: journals hold parsed records, timestamps and fresh ids are
explicit parameters, a rendered plot is an opaque marker string.
-/

deriving instance DecidableEq for Except

namespace Eduko

/-! ## String primitives

Character-level reimplementations of the Python `str` operations the code
uses (`startswith`, `endswith`, prefix test, slicing, digit parsing).  They
agree with the corresponding core `String` functions but are structural
over the underlying character list, so concrete instances evaluate inside
the kernel.  All paths involved are ASCII, where Python's index/slice
semantics coincide with character-list semantics.
-/

def strPrefixOf (a b : String) : Bool := a.data.isPrefixOf b.data

def strDrop (s : String) (n : Nat) : String := String.mk (s.data.drop n)

def strLen (s : String) : Nat := s.data.length

def strEndsWith (s suf : String) : Bool := suf.data.isSuffixOf s.data

def strStartsWith (s pre : String) : Bool := pre.data.isPrefixOf s.data

def strDropRight (s : String) (n : Nat) : String := String.mk (s.data.take (s.data.length - n))

def digitsVal (l : List Char) : Nat := l.foldl (fun acc c => acc * 10 + (c.toNat - 48)) 0

/-- Decimal rendering of a natural number (fuel-structural so that concrete
instances evaluate in the kernel; `natToString n` = Python `str(n)`). -/
def natDigitsAux : Nat → Nat → List Char
  | 0, _ => []
  | fuel + 1, n =>
    if n < 10 then [Char.ofNat (48 + n)]
    else natDigitsAux fuel (n / 10) ++ [Char.ofNat (48 + n % 10)]

def natToString (n : Nat) : String := String.mk (natDigitsAux (n + 1) n)

/-- `int(s)` on a candidate digit group: succeeds exactly on nonempty
all-digit strings (what the regex group `(\d{4})` guarantees). -/
def strToNat (s : String) : Option Nat :=
  if s.data ≠ [] ∧ s.data.all Char.isDigit then some (digitsVal s.data) else none

/-! ## Storage model

A store is a finite association list from path strings to file contents,
mirroring both a local directory tree (paths are the relative file paths)
and an S3 bucket (paths are flat keys with `/` as separator).  `setKey`
models idempotent overwrite-or-create (both `LocalStorage.write_file` and
`S3Storage.put_object` behave this way).
-/

abbrev Store := List (String × String)

def setKey (st : Store) (k v : String) : Store :=
  match st with
  | [] => [(k, v)]
  | (k', v') :: rest => if k' = k then (k, v) :: rest else (k', v') :: setKey rest k v

def getKey (st : Store) (k : String) : Option String :=
  match st with
  | [] => none
  | (k', v') :: rest => if k' = k then some v' else getKey rest k

/-- Immediate child of directory/prefix `p` contributed by key `k`:
`some (name, isDir)` when `k` lies strictly under `p ++ "/"`, where `name`
is the first path segment of the remainder and `isDir` is true when the
remainder has further segments.  (Models both `Path.iterdir` membership for
the local tree and S3 `Prefix`/`Delimiter` listing for flat keys.) -/
def childOf (p k : String) : Option (String × Bool) :=
  let pre := p ++ "/"
  if strPrefixOf pre k then
    let r := strDrop k (strLen pre)
    if r = "" then none
    else
      let name := String.mk (r.data.takeWhile (fun c => c ≠ '/'))
      some (name, strLen name < strLen r)
  else none

/-- The (name, isDir) children of `p` in `st`, in key order, deduplicated by
name.  A local directory listing shows each entry once; under tree-shaped
stores (the ones a filesystem can hold) the `isDir` flag of a name is
unambiguous. -/
def childrenOf (st : Store) (p : String) : List (String × Bool) :=
  dedupByName (st.filterMap (fun kv => childOf p kv.fst))
where
  dedupByName : List (String × Bool) → List (String × Bool)
    | [] => []
    | c :: cs =>
      c :: (dedupByName cs).filter (fun c' => c'.fst ≠ c.fst)

/-- `LocalStorage.list_dir`: if the directory does not exist return `[]`;
otherwise the entry names, with NO suffix distinguishing subdirectories
(`[p.name for p in full_path.iterdir()]`).  Listing a path that exists as a
plain file raises (`iterdir` on a non-directory), modelled as `.error`. -/
def localListDir (st : Store) (p : String) : Except String (List String) :=
  if (getKey st p).isSome then
    .error "NotADirectoryError"
  else
    .ok ((childrenOf st p).map Prod.fst)

/-- `S3Storage.list_dir`: prefix+delimiter listing.  Direct objects are
reported by bare name; common prefixes (subdirectories) are reported with a
trailing `/`.  The AWS response orders keys lexicographically; the model
keeps store order, which is equal up to permutation and irrelevant to the
claims below. -/
def s3ListDir (st : Store) (p : String) : List String :=
  let cs := childrenOf st p
  ((cs.filter (fun c => c.snd = false)).map Prod.fst)
    ++ ((cs.filter (fun c => c.snd = true)).map (fun c => c.fst ++ "/"))

inductive Backend where
  | loc
  | s3
deriving DecidableEq

/-- Backend-dispatched `list_dir`, as selected by `get_storage()`. -/
def listDir : Backend → Store → String → Except String (List String)
  | .loc => localListDir
  | .s3 => fun st p => .ok (s3ListDir st p)

/-! ## writer.py: snapshot paths and indices -/

def runsPath (sid pid : String) : String :=
  "sessions/" ++ sid ++ "/problems/" ++ pid ++ "/runs"

def submitPath (sid pid : String) : String :=
  "sessions/" ++ sid ++ "/problems/" ++ pid ++ "/submit"

/-- `f"run_{idx:04d}"`: decimal digits zero-padded to at least four. -/
def pad4 (n : Nat) : String :=
  let s := natToString n
  if strLen s ≥ 4 then s else String.mk (List.replicate (4 - strLen s) '0') ++ s

/-- The regex `^run_(\d{4})$` of `writer._RUN_DIR_RE`: a `run_` head and a
four-character all-digit tail. -/
def parseRunName (s : String) : Option Nat :=
  if strStartsWith s "run_" ∧ strLen s = 8 then strToNat (strDrop s 4) else none

/-- `item.rstrip('/')` for the listing entries (at most one trailing `/`). -/
def stripSlash (s : String) : String :=
  if strEndsWith s "/" then strDropRight s 1 else s

/-- `writer.next_run_index`: list the runs prefix, keep entries that end in
`/`, match the stripped name against `run_\d{4}`, return max+1; any listing
failure yields 1. -/
def nextRunIndex (b : Backend) (st : Store) (sid pid : String) : Nat :=
  match listDir b st (runsPath sid pid) with
  | .error _ => 1
  | .ok items =>
    let idxs := items.filterMap (fun item =>
      if strEndsWith item "/" then parseRunName (stripSlash item) else none)
    idxs.foldl max 0 + 1

/-- Serialised `meta.json` content for a run snapshot (JSON text abstracted
to a canonical rendering of the fields `write_json` receives). -/
def runMetaText (now : String) (idx : Nat) (codeLen : Nat) : String :=
  "server_ts=" ++ now ++ ";run_index=" ++ natToString idx
    ++ ";code_len=" ++ natToString codeLen ++ ";kind=run"

/-- `writer.save_run_snapshot`: allocate the index (explicit or scanned),
write `<runs>/run_NNNN/code.html` and `<runs>/run_NNNN/meta.json`, return
the run base path. -/
def saveRunSnapshot (b : Backend) (st : Store) (sid pid codeHtml now : String)
    (index : Option Nat) : Store × String :=
  let runIdx := match index with
    | some i => i
    | none => nextRunIndex b st sid pid
  let runBase := runsPath sid pid ++ "/run_" ++ pad4 runIdx
  let st1 := setKey st (runBase ++ "/code.html") codeHtml
  let st2 := setKey st1 (runBase ++ "/meta.json") (runMetaText now runIdx (strLen codeHtml))
  (st2, runBase)

/-! ## Records and journals (writer.append_jsonl vs the backends' append_jsonl)

Journal files are modelled at the record level: a journal maps a path to
the list of JSON records its lines hold (JSON serialisation abstracted).
The read-whole/append-line/write-back pattern of both layers becomes
"append one record".  Clock and UUID are explicit parameters (`now`,
`fresh`).
-/

abbrev Record := List (String × String)

def recGet (r : Record) (k : String) : Option String :=
  match r with
  | [] => none
  | (k', v) :: rest => if k' = k then some v else recGet rest k

/-- Python `dict.setdefault(k, v)`: insert at the end when absent, leave
the record unchanged when present. -/
def setdefault (r : Record) (k v : String) : Record :=
  if (recGet r k).isSome then r else r ++ [(k, v)]

abbrev Journal := List (String × List Record)

def getJ (j : Journal) (p : String) : List Record :=
  match j with
  | [] => []
  | (p', rs) :: rest => if p' = p then rs else getJ rest p

def setJ (j : Journal) (p : String) (rs : List Record) : Journal :=
  match j with
  | [] => [(p, rs)]
  | (p', rs') :: rest => if p' = p then (p, rs) :: rest else (p', rs') :: setJ rest p rs

/-- The record `writer.append_jsonl` actually serialises:
`obj.setdefault("server_ts", utc_now_iso()); obj.setdefault("event_id", str(uuid4()))`. -/
def injectMeta (obj : Record) (now fresh : String) : Record :=
  setdefault (setdefault obj "server_ts" now) "event_id" fresh

/-- `writer.append_jsonl`: copy the record, inject the missing metadata,
read the existing journal (absence = empty), append one line, write back. -/
def writerAppendJsonl (j : Journal) (path : String) (obj : Record) (now fresh : String) :
    Journal :=
  setJ j path (getJ j path ++ [injectMeta obj now fresh])

/-- `LocalStorage.append_jsonl`: `json.dumps(record)` appended verbatim via
`open(path, 'a')` — no metadata injection. -/
def localAppendJsonl (j : Journal) (path : String) (obj : Record) : Journal :=
  setJ j path (getJ j path ++ [obj])

/-- `S3Storage.append_jsonl`: read existing content (absence = empty),
append `json.dumps(record)` verbatim, write back — no metadata injection. -/
def s3AppendJsonl (j : Journal) (path : String) (obj : Record) : Journal :=
  setJ j path (getJ j path ++ [obj])

/-! ## writer.save_submit_final -/

/-- Canonical rendering of a JSON object for a stored `meta.json`
(serialisation abstracted; field order is dict insertion order). -/
def renderRecord (r : Record) : String :=
  r.foldl (fun acc kv => acc ++ kv.fst ++ "=" ++ kv.snd ++ ";") ""

/-- `dict[k] = v`: replace in place when present, append when absent. -/
def recSet (r : Record) (k v : String) : Record :=
  if (recGet r k).isSome then
    r.map (fun kv => if kv.fst = k then (k, v) else kv)
  else r ++ [(k, v)]

/-- `meta.update(extra_meta)`. -/
def recUpdate (r extra : Record) : Record :=
  extra.foldl (fun acc kv => recSet acc kv.fst kv.snd) r

/-- `writer.save_submit_final`: write `<submit>/final_code.html` and
`<submit>/meta.json` (base fields merged with caller extras), return the
submit base path. -/
def saveSubmitFinal (st : Store) (sid pid codeHtml now : String) (extraMeta : Record) :
    Store × String :=
  let submitBase := submitPath sid pid
  let st1 := setKey st (submitBase ++ "/final_code.html") codeHtml
  let meta := recUpdate
    [("server_ts", now), ("code_len", natToString (strLen codeHtml)), ("kind", "submit")]
    extraMeta
  let st2 := setKey st1 (submitBase ++ "/meta.json") (renderRecord meta)
  (st2, submitBase)

/-! ## sessions.py: the test-type lock -/

def strLower (s : String) : String := String.mk (s.data.map Char.toLower)

def strUpper (s : String) : String := String.mk (s.data.map Char.toUpper)

/-- The session manifest dict (fields of `ensure_session_test_type`'s lazy
initialisation; `start_session` additionally sets `name`/`consent`, which
no claim touches).  `test_type` is `Option` because the code reads it with
`dict.get`. -/
structure Manifest where
  session_id : String
  test_type : Option String
  created_at : String
  finished_at : Option String
  name : Option String
deriving DecidableEq, Repr

abbrev SessStore := List (String × Manifest)

def getSess (ms : SessStore) (sid : String) : Option Manifest :=
  match ms with
  | [] => none
  | (sid', m) :: rest => if sid' = sid then some m else getSess rest sid

def setSess (ms : SessStore) (sid : String) (m : Manifest) : SessStore :=
  match ms with
  | [] => [(sid, m)]
  | (sid', m') :: rest =>
    if sid' = sid then (sid, m) :: rest else (sid', m') :: setSess rest sid m

inductive EnsureOutcome where
  | ok (m : Manifest)
  | httpError (status : Nat) (detail : String)
deriving DecidableEq, Repr

/-- `sessions.ensure_session_test_type`: create a manifest locked to the
intended type when none exists; raise HTTP 409 and leave the store
untouched when the locked type is truthy and differs case-insensitively;
otherwise return the existing manifest unchanged. -/
def ensureSessionTestType (ms : SessStore) (sid intendedType now : String) :
    EnsureOutcome × SessStore :=
  match getSess ms sid with
  | none =>
    let meta : Manifest :=
      { session_id := sid, test_type := some (strLower intendedType)
        created_at := now, finished_at := none, name := none }
    (.ok meta, setSess ms sid meta)
  | some existing =>
    match existing.test_type with
    | some locked =>
      if locked ≠ "" ∧ strLower locked ≠ strLower intendedType then
        (.httpError 409
          ("Session locked to test_type=" ++ strUpper locked ++ ", cannot use "
            ++ strUpper intendedType ++ " routes."), ms)
      else (.ok existing, ms)
    | none => (.ok existing, ms)

/-! ## submissions_dv.py: the notebook diff -/

structure NbDiff where
  added_cells : Nat
  removed_cells : Nat
  modified_cells : List Nat
  total_changes : Nat
deriving DecidableEq, Repr

/-- `cell.get("source", "")` for a notebook cell dict. -/
def cellSource (c : Record) : String := (recGet c "source").getD ""

/-- `submissions_dv._compute_nb_diff` applied to
`prev_snapshot.get("cells", [])` and the current cell list.  Python's
`max(0, a - b)` over ints coincides with truncated `Nat` subtraction. -/
def computeNbDiff (prevCells currentCells : List Record) : NbDiff :=
  let added := currentCells.length - prevCells.length
  let removed := prevCells.length - currentCells.length
  let modified := (List.range (min prevCells.length currentCells.length)).filter
    (fun i => cellSource (prevCells.getD i []) ≠ cellSource (currentCells.getD i []))
  { added_cells := added, removed_cells := removed, modified_cells := modified
    total_changes := added + removed + modified.length }

/-! ## Execution sandbox (dv_runner.py)

User code is embedded as a small statement language over the shared
namespace: assignments, `print`, bare expression statements, a plotting
call (which draws on the current rendering surface), and `raise`.  A parsed
Python cell maps to `Cell.parsed stmts lastExpr` (`lastExpr` is the
trailing bare expression when the final AST node is `ast.Expr`);
unparseable source maps to `Cell.parseError`.  The matplotlib figure
registry is abstracted to one flag (did anything draw since the last
`plt.close('all')`); the serialised PNG is an opaque marker string.  The
`plt/np/pd` library handles and the optional preloaded `df` dataset are
omitted from the namespace: no claim mentions them and the dataset is
absent in this environment (its absence must not fail any cell).
-/

inductive Val where
  | pyNone
  | vInt (n : Int)
  | vStr (s : String)
  | vDataFrame (rows : List (List String))
  | vSeries (elems : List String)
deriving DecidableEq, Repr

abbrev Ns := List (String × Val)

def nsGet (ns : Ns) (x : String) : Option Val :=
  match ns with
  | [] => none
  | (y, v) :: rest => if y = x then some v else nsGet rest x

def nsSet (ns : Ns) (x : String) (v : Val) : Ns :=
  match ns with
  | [] => [(x, v)]
  | (y, w) :: rest => if y = x then (x, v) :: rest else (y, w) :: nsSet rest x v

inductive Expr where
  | lit (v : Val)
  | var (x : String)
deriving DecidableEq, Repr

/-- Expression evaluation; an unbound variable raises `NameError`. -/
def evalExpr (ns : Ns) : Expr → Except String Val
  | .lit v => .ok v
  | .var x =>
    match nsGet ns x with
    | some v => .ok v
    | none => .error ("name " ++ x ++ " is not defined")

def joinWith (sep : String) : List String → String
  | [] => ""
  | [x] => x
  | x :: y :: rest => x ++ sep ++ joinWith sep (y :: rest)

/-- `DataFrame.to_string()`: the full rendered table, no truncation. -/
def dfToString (rows : List (List String)) : String :=
  joinWith "\n" (rows.map (joinWith " "))

/-- `Series.to_string()`. -/
def seriesToString (elems : List String) : String := joinWith "\n" elems

def intToString (n : Int) : String :=
  if n < 0 then "-" ++ natToString n.natAbs else natToString n.natAbs

/-- Python `str()` of a value (used by `print`). -/
def pyStr : Val → String
  | .pyNone => "None"
  | .vInt n => intToString n
  | .vStr s => s
  | .vDataFrame rows => dfToString rows
  | .vSeries es => seriesToString es

/-- Python `repr()` of a value; strings gain quotes (codepoint 39). -/
def pyRepr : Val → String
  | .vStr s => String.mk [Char.ofNat 39] ++ s ++ String.mk [Char.ofNat 39]
  | v => pyStr v

/-- The notebook auto-display rendering of `run_dv_cells`: DataFrames and
Series via `to_string()`, everything else via `repr`. -/
def displayVal : Val → String
  | .vDataFrame rows => dfToString rows
  | .vSeries es => seriesToString es
  | v => pyRepr v

inductive Stmt where
  | assign (x : String) (e : Expr)
  | printS (e : Expr)
  | exprS (e : Expr)
  | plotS
  | raiseS (msg : String)
deriving DecidableEq, Repr

/-- Sandbox state: the shared namespace plus the rendering-surface flag
(true when a figure with drawable content exists). -/
structure SBState where
  ns : Ns
  fig : Bool
deriving DecidableEq, Repr

/-- Output of executing statements: captured stdout, final state, and the
exception message when one was raised. -/
structure StepOut where
  out : String
  st : SBState
  err : Option String
deriving DecidableEq, Repr

def execStmt (s : SBState) : Stmt → StepOut
  | .assign x e =>
    match evalExpr s.ns e with
    | .ok v => ⟨"", { s with ns := nsSet s.ns x v }, none⟩
    | .error m => ⟨"", s, some m⟩
  | .printS e =>
    match evalExpr s.ns e with
    | .ok v => ⟨pyStr v ++ "\n", s, none⟩
    | .error m => ⟨"", s, some m⟩
  | .exprS e =>
    match evalExpr s.ns e with
    | .ok _ => ⟨"", s, none⟩
    | .error m => ⟨"", s, some m⟩
  | .plotS => ⟨"", { s with fig := true }, none⟩
  | .raiseS m => ⟨"", s, some m⟩

/-- Sequential execution: stdout accumulates; the first raised exception
stops execution, keeping the output produced so far. -/
def execStmts (s : SBState) : List Stmt → StepOut
  | [] => ⟨"", s, none⟩
  | t :: rest =>
    let r := execStmt s t
    match r.err with
    | some _ => r
    | none =>
      let r2 := execStmts r.st rest
      ⟨r.out ++ r2.out, r2.st, r2.err⟩

inductive Cell where
  | parsed (stmts : List Stmt) (lastExpr : Option Expr)
  | parseError (msg : String)
deriving DecidableEq, Repr

def Cell.isParsed : Cell → Bool
  | .parsed _ _ => true
  | .parseError _ => false

/-- `_capture_plot_png_if_any`: a base64 PNG marker for the first figure
with drawable content, else `None`; all figures are closed afterwards. -/
def capturePlot (s : SBState) : Option String :=
  if s.fig then some "base64png" else none

/-- `run_dv_code` (run_single): reset figures and style, `exec` the whole
code (an exception yields `Code Error:` stderr, `plot = None`, and the
stdout captured so far), then capture the plot, warning when none. -/
def runDvCode (c : Cell) : String × String × Option String :=
  match c with
  | .parseError m => ("", "Code Error: " ++ m, none)
  | .parsed stmts lastE =>
    let body := stmts ++ (match lastE with | some e => [Stmt.exprS e] | none => [])
    let r := execStmts ⟨[], false⟩ body
    match r.err with
    | some m => (r.out, "Code Error: " ++ m, none)
    | none =>
      match capturePlot r.st with
      | some png => (r.out, "", some png)
      | none =>
        (r.out, "Warning: No plot was created. Make sure to call plt.plot() or similar.", none)

structure CellRes where
  stdout : String
  stderr : String
  plot : Option String
deriving DecidableEq, Repr

/-- One iteration of the `run_dv_cells` loop: reset figures (namespace
kept), split off a trailing bare expression and evaluate it for
auto-display (skipped when it is `None`), record runtime exceptions as
`Code Error:` in this cell's stderr, capture the plot.  A cell whose
source fails to parse is FATAL: the `except SyntaxError` handler re-runs
`exec(code)`, which raises `SyntaxError` again inside the handler where no
`except Exception` applies, so the exception propagates out of
`run_dv_cells` (modelled as `.error`). -/
def runCellBody (s0 : SBState) (c : Cell) : Except String (CellRes × SBState) :=
  let s : SBState := { s0 with fig := false }
  match c with
  | .parseError m => .error m
  | .parsed stmts lastE =>
    match lastE with
    | some e =>
      let r := execStmts s stmts
      match r.err with
      | some m => .ok (⟨r.out, "Code Error: " ++ m, capturePlot r.st⟩, r.st)
      | none =>
        match evalExpr r.st.ns e with
        | .error m => .ok (⟨r.out, "Code Error: " ++ m, capturePlot r.st⟩, r.st)
        | .ok v =>
          let disp := if v = .pyNone then "" else displayVal v ++ "\n"
          .ok (⟨r.out ++ disp, "", capturePlot r.st⟩, r.st)
    | none =>
      let r := execStmts s stmts
      match r.err with
      | some m => .ok (⟨r.out, "Code Error: " ++ m, capturePlot r.st⟩, r.st)
      | none => .ok (⟨r.out, "", capturePlot r.st⟩, r.st)

def runCells (s : SBState) : List Cell → Except String (List CellRes)
  | [] => .ok []
  | c :: cs =>
    match runCellBody s c with
    | .error m => .error m
    | .ok (r, s1) =>
      match runCells s1 cs with
      | .error m => .error m
      | .ok rs => .ok (r :: rs)

/-- `run_dv_cells` (run_many): one shared namespace across all cells. -/
def runDvCells (cells : List Cell) : Except String (List CellRes) :=
  runCells ⟨[], false⟩ cells

/-! ## submissions_fe.py: the Run-snapshot route's diff step -/

def diffsPath (sid pid : String) : String :=
  "sessions/" ++ sid ++ "/problems/" ++ pid ++ "/diffs"

/-- Lexicographic (codepoint) order on char lists — Python string `<`. -/
def lexLe : List Char → List Char → Bool
  | [], _ => true
  | _ :: _, [] => false
  | a :: as, b :: bs =>
    if a.toNat < b.toNat then true
    else if b.toNat < a.toNat then false
    else lexLe as bs

def strLeB (a b : String) : Bool := lexLe a.data b.data

/-- `submissions_fe._latest_run_code`: list the runs prefix, keep entries
ending in `/` that start with `run_`, strip the slash; `sorted(...)[-1]`
is the lexicographic maximum; read its `code.html` if it exists, else
`None`; any failure (including a listing error) yields `None`. -/
def latestRunCode (b : Backend) (st : Store) (sid pid : String) : Option String :=
  match listDir b st (runsPath sid pid) with
  | .error _ => none
  | .ok items =>
    let allRuns := (items.filter
      (fun it => strEndsWith it "/" && strStartsWith it "run_")).map stripSlash
    match allRuns with
    | [] => none
    | r0 :: rs =>
      let latest := rs.foldl (fun acc x => if strLeB acc x then x else acc) r0
      getKey st (runsPath sid pid ++ "/" ++ latest ++ "/code.html")

/-- `difflib.unified_diff` output, abstracted to an opaque rendering of its
inputs (no claim inspects the diff text itself). -/
def unifiedDiffText (prevCode nextCode : String) (idxFrom idxTo : Nat) : String :=
  "unified-diff(run_" ++ pad4 idxFrom ++ ",run_" ++ pad4 idxTo ++ "|"
    ++ prevCode ++ "|" ++ nextCode ++ ")"

/-- `writer.save_diff_between_runs`: persist the diff keyed by the index
pair. -/
def saveDiffBetweenRuns (st : Store) (sid pid prevCode nextCode : String)
    (idxFrom idxTo : Nat) : Store × String :=
  let name := pad4 idxFrom ++ "_to_" ++ pad4 idxTo ++ ".patch"
  let path := diffsPath sid pid ++ "/" ++ name
  (setKey st path (unifiedDiffText prevCode nextCode idxFrom idxTo), path)

/-- Python attribute lookup `run_path.name`: `save_run_snapshot` returns a
plain `str`, which has no attribute `name`, so the lookup raises
`AttributeError` — modelled as `none`. -/
def strNameAttr (_s : String) : Option String := none

/-- The `try: ... except Exception: pass` diff block of `snapshot_fe`:
`idx_to = int(run_path.name.split("_")[1])` then `save_diff_between_runs`.
Returns the store plus whether a diff record was written; every raised
exception inside maps to "no write" (`pass`).  For a name of the form
`run_NNNN`, `split("_")[1]` is the digit tail, i.e. `strDrop nm 4`. -/
def feDiffStep (st : Store) (sid pid prevCode code runPath : String) : Store × Bool :=
  match strNameAttr runPath with
  | none => (st, false)
  | some nm =>
    match strToNat (strDrop nm 4) with
    | none => (st, false)
    | some idxTo => ((saveDiffBetweenRuns st sid pid prevCode code (idxTo - 1) idxTo).fst, true)

/-- `submissions_fe.snapshot_fe` (persistence part): read the latest prior
run code, save the new snapshot, and attempt the diff step only when the
prior code is truthy (`if prev_code:` — non-None AND nonempty).  Returns
the final store and whether a diff record was written.  (The telemetry
`append_event` call targets the session journal, modelled separately; the
route's final `run_path.name` response access raises after persistence and
touches no storage.) -/
def snapshotFe (b : Backend) (st : Store) (sid pid code now : String) : Store × Bool :=
  let prevCode := latestRunCode b st sid pid
  let res := saveRunSnapshot b st sid pid code now none
  match prevCode with
  | none => (res.fst, false)
  | some s =>
    if s ≠ "" then feDiffStep res.fst sid pid s code res.snd
    else (res.fst, false)

/-! ## Theorems -/

/-! ### Association-list lemmas -/

theorem getKey_setKey_self (st : Store) (k v : String) :
    getKey (setKey st k v) k = some v := by
  induction st with
  | nil => simp [setKey, getKey]
  | cons kv rest ih =>
    obtain ⟨k0, v0⟩ := kv
    by_cases h : k0 = k
    · simp [setKey, getKey, h]
    · simp [setKey, getKey, h, ih]

theorem getKey_setKey_ne (st : Store) (k v k' : String) (h : k' ≠ k) :
    getKey (setKey st k v) k' = getKey st k' := by
  have h' : ¬(k = k') := fun hh => h hh.symm
  induction st with
  | nil => simp [setKey, getKey, h']
  | cons kv rest ih =>
    obtain ⟨k0, v0⟩ := kv
    by_cases h0 : k0 = k
    · subst h0
      simp [setKey, getKey, h']
    · by_cases h1 : k0 = k'
      · simp [setKey, getKey, h0, h1, h]
      · simp [setKey, getKey, h0, h1, ih]

theorem keys_setKey_of_isSome (st : Store) (k v : String) (h : (getKey st k).isSome) :
    (setKey st k v).map Prod.fst = st.map Prod.fst := by
  induction st with
  | nil => simp [getKey] at h
  | cons kv rest ih =>
    obtain ⟨k0, v0⟩ := kv
    by_cases h0 : k0 = k
    · simp [setKey, h0]
    · simp only [getKey, h0, if_false] at h
      simp [setKey, h0, ih h]

theorem getJ_setJ (j : Journal) (p : String) (rs : List Record) :
    getJ (setJ j p rs) p = rs := by
  induction j with
  | nil => simp [setJ, getJ]
  | cons kv rest ih =>
    obtain ⟨p0, rs0⟩ := kv
    by_cases h : p0 = p
    · simp [setJ, getJ, h]
    · simp [setJ, getJ, h, ih]

theorem getSess_setSess_self (ms : SessStore) (sid : String) (m : Manifest) :
    getSess (setSess ms sid m) sid = some m := by
  induction ms with
  | nil => simp [setSess, getSess]
  | cons kv rest ih =>
    obtain ⟨s0, m0⟩ := kv
    by_cases h : s0 = sid
    · simp [setSess, getSess, h]
    · simp [setSess, getSess, h, ih]

theorem recGet_append_of_isSome (r l : Record) (k w : String)
    (h : recGet r k = some w) : recGet (r ++ l) k = some w := by
  induction r with
  | nil => simp [recGet] at h
  | cons kv rest ih =>
    obtain ⟨k0, v0⟩ := kv
    by_cases h0 : k0 = k
    · simp only [recGet, h0, if_true] at h
      simp [recGet, h0, h]
    · simp only [recGet, h0, if_false] at h
      simp [recGet, h0, ih h]

theorem recGet_append_of_none (r l : Record) (k : String)
    (h : recGet r k = none) : recGet (r ++ l) k = recGet l k := by
  induction r with
  | nil => simp [recGet]
  | cons kv rest ih =>
    obtain ⟨k0, v0⟩ := kv
    by_cases h0 : k0 = k
    · simp [recGet, h0] at h
    · simp only [recGet, h0, if_false] at h
      simp [recGet, h0, ih h]

theorem recGet_setdefault_self (r : Record) (k v : String) :
    recGet (setdefault r k v) k = some ((recGet r k).getD v) := by
  rcases h : recGet r k with _ | w
  · simp [setdefault, h, recGet_append_of_none r [(k, v)] k h, recGet]
  · simp [setdefault, h]

theorem recGet_setdefault_ne (r : Record) (k v k' : String) (h : k' ≠ k) :
    recGet (setdefault r k v) k' = recGet r k' := by
  have h' : ¬(k = k') := fun hh => h hh.symm
  rcases h0 : recGet r k with _ | w
  · rcases h1 : recGet r k' with _ | w'
    · simp [setdefault, h0, recGet_append_of_none r [(k, v)] k' h1, recGet, h']
    · simp [setdefault, h0, recGet_append_of_isSome r [(k, v)] k' w' h1]
  · simp [setdefault, h0]

theorem strApp_left_cancel (a s1 s2 : String) (h : a ++ s1 = a ++ s2) : s1 = s2 := by
  have hd := congrArg String.data h
  simp only [String.data_append] at hd
  exact congrArg String.mk (List.append_cancel_left hd)

theorem str_empty_append (s : String) : "" ++ s = s := by
  cases s
  rfl

theorem str_append_empty (s : String) : s ++ "" = s := by
  cases s with
  | mk d => exact congrArg String.mk (List.append_nil d)

theorem str_append_assoc (a b c : String) : a ++ b ++ c = a ++ (b ++ c) := by
  cases a with
  | mk da =>
    cases b with
    | mk db =>
      cases c with
      | mk dc => exact congrArg String.mk (List.append_assoc da db dc)

/-! ### Sandbox lemmas -/

theorem execStmt_out_of_err (s : SBState) (t : Stmt) (m : String)
    (h : (execStmt s t).err = some m) : (execStmt s t).out = "" := by
  cases t with
  | assign x e =>
    rcases hE : evalExpr s.ns e with m2 | v <;> simp [execStmt, hE] at h ⊢
  | printS e =>
    rcases hE : evalExpr s.ns e with m2 | v <;> simp [execStmt, hE] at h ⊢
  | exprS e =>
    rcases hE : evalExpr s.ns e with m2 | v <;> simp [execStmt, hE] at h ⊢
  | plotS => simp [execStmt] at h
  | raiseS m2 => simp [execStmt]

/-- Composition law for sequential execution: a failure in the first block
keeps its partial output; otherwise outputs concatenate and the second
block starts from the first block's final state. -/
theorem execStmts_append (s : SBState) (l1 l2 : List Stmt) :
    execStmts s (l1 ++ l2) =
      match (execStmts s l1).err with
      | some _ => execStmts s l1
      | none =>
        ⟨(execStmts s l1).out ++ (execStmts (execStmts s l1).st l2).out,
         (execStmts (execStmts s l1).st l2).st,
         (execStmts (execStmts s l1).st l2).err⟩ := by
  induction l1 generalizing s with
  | nil => simp [execStmts, str_empty_append]
  | cons t rest ih =>
    rcases h : (execStmt s t).err with _ | m
    · rcases h2 : (execStmts (execStmt s t).st rest).err with _ | m2
      · simp [execStmts, h, ih, h2, str_append_assoc]
      · simp [execStmts, h, ih, h2]
    · simp [execStmts, h]

/-- A cell that parsed never raises out of the `run_dv_cells` loop body:
every runtime failure is converted into the cell's stderr. -/
theorem runCellBody_parsed_isOk (s : SBState) (stmts : List Stmt) (lastE : Option Expr) :
    ∃ r s1, runCellBody s (.parsed stmts lastE) = .ok (r, s1) := by
  cases lastE with
  | none =>
    rcases h : (execStmts { s with fig := false } stmts).err with _ | m
    · exact ⟨_, _, (by simp [runCellBody, h] : _ = .ok
        (⟨(execStmts { s with fig := false } stmts).out, "",
          capturePlot (execStmts { s with fig := false } stmts).st⟩,
         (execStmts { s with fig := false } stmts).st))⟩
    · exact ⟨_, _, (by simp [runCellBody, h] : _ = .ok
        (⟨(execStmts { s with fig := false } stmts).out, "Code Error: " ++ m,
          capturePlot (execStmts { s with fig := false } stmts).st⟩,
         (execStmts { s with fig := false } stmts).st))⟩
  | some e =>
    rcases h : (execStmts { s with fig := false } stmts).err with _ | m
    · rcases h2 : evalExpr (execStmts { s with fig := false } stmts).st.ns e with m2 | v
      · exact ⟨_, _, (by simp [runCellBody, h, h2] : _ = .ok
          (⟨(execStmts { s with fig := false } stmts).out, "Code Error: " ++ m2,
            capturePlot (execStmts { s with fig := false } stmts).st⟩,
           (execStmts { s with fig := false } stmts).st))⟩
      · exact ⟨_, _, (by simp [runCellBody, h, h2] : _ = .ok
          (⟨(execStmts { s with fig := false } stmts).out
              ++ (if v = .pyNone then "" else displayVal v ++ "\n"), "",
            capturePlot (execStmts { s with fig := false } stmts).st⟩,
           (execStmts { s with fig := false } stmts).st))⟩
    · exact ⟨_, _, (by simp [runCellBody, h] : _ = .ok
        (⟨(execStmts { s with fig := false } stmts).out, "Code Error: " ++ m,
          capturePlot (execStmts { s with fig := false } stmts).st⟩,
         (execStmts { s with fig := false } stmts).st))⟩

/-- C1: the claim states that the local-filesystem and object-store
backends return identical `list_dir` results and that BOTH suffix
directory entries.  The code refutes this: for a store holding the single
file `d/sub/f.txt`, `LocalStorage.list_dir("d")` returns `["sub"]` (bare
name, `[p.name for p in full_path.iterdir()]` adds no suffix) while
`S3Storage.list_dir("d")` returns `["sub/"]`; the two backends do agree
that a never-created path lists as `[]` without error. -/
theorem list_dir_backend_divergence :
    localListDir [("d/sub/f.txt", "x")] "d" = .ok ["sub"] ∧
    s3ListDir [("d/sub/f.txt", "x")] "d" = ["sub/"] ∧
    ("sub" : String) ≠ "sub/" ∧
    localListDir [("d/sub/f.txt", "x")] "never/created" = .ok [] ∧
    s3ListDir [("d/sub/f.txt", "x")] "never/created" = [] := by
  refine ⟨?_, ?_, ?_, ?_, ?_⟩ <;> decide

/-- C2: the claim states run-snapshot indices are strictly increasing from
1 and never reused or overwritten.  `next_run_index` only counts listing
entries that end in `/`, a convention only the object-store backend
follows, so under the local backend (the default) the scan always yields
1: after a first snapshot, a second `save_run_snapshot` allocates index 1
again and overwrites `run_0001/code.html`.  Under the object-store listing
convention the same scan correctly allocates index 2. -/
theorem save_run_snapshot_local_reuses_index :
    nextRunIndex .loc (saveRunSnapshot .loc [] "s" "p" "first code" "t1" none).fst "s" "p"
        = 1 ∧
    (saveRunSnapshot .loc (saveRunSnapshot .loc [] "s" "p" "first code" "t1" none).fst
        "s" "p" "second" "t2" none).snd
      = (saveRunSnapshot .loc [] "s" "p" "first code" "t1" none).snd ∧
    getKey (saveRunSnapshot .loc [] "s" "p" "first code" "t1" none).fst
        "sessions/s/problems/p/runs/run_0001/code.html" = some "first code" ∧
    getKey (saveRunSnapshot .loc (saveRunSnapshot .loc [] "s" "p" "first code" "t1" none).fst
        "s" "p" "second" "t2" none).fst
        "sessions/s/problems/p/runs/run_0001/code.html" = some "second" ∧
    nextRunIndex .s3 (saveRunSnapshot .s3 [] "s" "p" "first code" "t1" none).fst "s" "p"
        = 2 := by
  refine ⟨?_, ?_, ?_, ?_, ?_⟩ <;> decide

/-- C5 (counterexample): the claim attributes metadata injection to
`append_jsonl` including the storage backends' implementations
(`LocalStorage.append_jsonl`, `S3Storage.append_jsonl`), but those append
the record verbatim: appending `{"event_type": "click"}` through the local
backend leaves a journal line with neither `server_ts` nor `event_id`, and
the S3 backend behaves the same. -/
theorem storage_append_jsonl_appends_verbatim :
    localAppendJsonl [] "sessions/s/raw/events.jsonl" [("event_type", "click")]
      = [("sessions/s/raw/events.jsonl", [[("event_type", "click")]])] ∧
    s3AppendJsonl [] "sessions/s/raw/events.jsonl" [("event_type", "click")]
      = [("sessions/s/raw/events.jsonl", [[("event_type", "click")]])] ∧
    recGet [("event_type", "click")] "server_ts" = none ∧
    recGet [("event_type", "click")] "event_id" = none := by
  refine ⟨?_, ?_, ?_, ?_⟩ <;> decide

/-- C5 (amended): the record appended to the journal by the WRITER-layer
`append_jsonl` (`writer.py`, the function used for every journal write)
always carries `server_ts` and `event_id`: a value already present in the
input record is kept, an absent one is filled with the current server time
resp. a fresh UUID; the storage backends' own `append_jsonl` methods
append the record verbatim without injection. -/
theorem append_jsonl_injects_metadata (j : Journal) (path : String) (obj : Record)
    (now fresh : String) :
    getJ (writerAppendJsonl j path obj now fresh) path
      = getJ j path ++ [injectMeta obj now fresh] ∧
    recGet (injectMeta obj now fresh) "server_ts" = some ((recGet obj "server_ts").getD now) ∧
    recGet (injectMeta obj now fresh) "event_id" = some ((recGet obj "event_id").getD fresh) ∧
    getJ (localAppendJsonl j path obj) path = getJ j path ++ [obj] ∧
    getJ (s3AppendJsonl j path obj) path = getJ j path ++ [obj] := by
  refine ⟨getJ_setJ _ _ _, ?_, ?_, getJ_setJ _ _ _, getJ_setJ _ _ _⟩
  · rw [injectMeta, recGet_setdefault_ne _ _ _ _ (by decide), recGet_setdefault_self]
  · rw [injectMeta, recGet_setdefault_self,
      recGet_setdefault_ne _ "server_ts" now "event_id" (by decide)]

/-- C6: once a session manifest records a truthy locked test-type, an
operation with a (case-insensitively) different intended type raises HTTP
409 and leaves the session store untouched; when no manifest exists, the
operation creates one locked to the lower-cased intended type. -/
theorem ensure_session_test_type_lock :
    (∀ (ms : SessStore) (sid intended now : String) (m : Manifest) (locked : String),
      getSess ms sid = some m → m.test_type = some locked → locked ≠ "" →
      strLower locked ≠ strLower intended →
      ensureSessionTestType ms sid intended now
        = (.httpError 409
            ("Session locked to test_type=" ++ strUpper locked ++ ", cannot use "
              ++ strUpper intended ++ " routes."), ms)) ∧
    (∀ (ms : SessStore) (sid intended now : String),
      getSess ms sid = none →
      (ensureSessionTestType ms sid intended now).fst
          = .ok { session_id := sid, test_type := some (strLower intended)
                  created_at := now, finished_at := none, name := none } ∧
      getSess (ensureSessionTestType ms sid intended now).snd sid
          = some { session_id := sid, test_type := some (strLower intended)
                   created_at := now, finished_at := none, name := none }) := by
  constructor
  · intro ms sid intended now m locked hm ht hne hdiff
    simp [ensureSessionTestType, hm, ht, hne, hdiff]
  · intro ms sid intended now hm
    refine ⟨by simp [ensureSessionTestType, hm], ?_⟩
    simp [ensureSessionTestType, hm, getSess_setSess_self]

/-- C6 witness: a session locked to `fe` rejects a `dv` operation with a
409 and an unchanged store; a fresh session id gets a manifest locked to
`dv`. -/
theorem ensure_session_test_type_lock_witness :
    ensureSessionTestType [("S", ⟨"S", some "fe", "t0", none, none⟩)] "S" "dv" "t1"
      = (.httpError 409 "Session locked to test_type=FE, cannot use DV routes.",
         [("S", ⟨"S", some "fe", "t0", none, none⟩)]) ∧
    (ensureSessionTestType [] "S" "DV" "t1").fst
      = .ok ⟨"S", some "dv", "t1", none, none⟩ := by
  constructor
  · have := ensure_session_test_type_lock.1
      [("S", ⟨"S", some "fe", "t0", none, none⟩)] "S" "dv" "t1"
      ⟨"S", some "fe", "t0", none, none⟩ "fe" (by decide) rfl (by decide) (by decide)
    rw [this]
    decide
  · exact (ensure_session_test_type_lock.2 [] "S" "DV" "t1" (by decide)).1

/-- C7: `save_submit_final` always returns the same canonical submit
location for a (session, problem); after two calls the canonical
`final_code.html` holds the second call's code, the canonical `meta.json`
holds the second call's metadata, and the second call adds no new storage
key anywhere (one final record, overwritten in place). -/
theorem save_submit_final_overwrites (st : Store) (sid pid c1 t1 c2 t2 : String)
    (e1 e2 : Record) :
    (saveSubmitFinal (saveSubmitFinal st sid pid c1 t1 e1).fst sid pid c2 t2 e2).snd
        = (saveSubmitFinal st sid pid c1 t1 e1).snd ∧
    (saveSubmitFinal st sid pid c1 t1 e1).snd = submitPath sid pid ∧
    getKey (saveSubmitFinal (saveSubmitFinal st sid pid c1 t1 e1).fst sid pid c2 t2 e2).fst
        (submitPath sid pid ++ "/final_code.html") = some c2 ∧
    getKey (saveSubmitFinal (saveSubmitFinal st sid pid c1 t1 e1).fst sid pid c2 t2 e2).fst
        (submitPath sid pid ++ "/meta.json")
      = some (renderRecord (recUpdate
          [("server_ts", t2), ("code_len", natToString (strLen c2)), ("kind", "submit")] e2)) ∧
    (saveSubmitFinal (saveSubmitFinal st sid pid c1 t1 e1).fst sid pid c2 t2 e2).fst.map
        Prod.fst
      = (saveSubmitFinal st sid pid c1 t1 e1).fst.map Prod.fst := by
  have hne : submitPath sid pid ++ "/final_code.html" ≠ submitPath sid pid ++ "/meta.json" := by
    intro heq
    have := strApp_left_cancel _ _ _ heq
    simp at this
  refine ⟨rfl, rfl, ?_, ?_, ?_⟩
  · rw [saveSubmitFinal]
    simp only
    rw [getKey_setKey_ne _ _ _ _ hne, getKey_setKey_self]
  · rw [saveSubmitFinal]
    simp only
    rw [getKey_setKey_self]
  · rw [saveSubmitFinal, saveSubmitFinal]
    simp only
    have hfc : (getKey
        (setKey (setKey st (submitPath sid pid ++ "/final_code.html") c1)
          (submitPath sid pid ++ "/meta.json")
          (renderRecord (recUpdate
            [("server_ts", t1), ("code_len", natToString (strLen c1)), ("kind", "submit")] e1)))
        (submitPath sid pid ++ "/final_code.html")).isSome := by
      rw [getKey_setKey_ne _ _ _ _ hne, getKey_setKey_self]
      rfl
    have hmj : (getKey
        (setKey (setKey (setKey st (submitPath sid pid ++ "/final_code.html") c1)
            (submitPath sid pid ++ "/meta.json")
            (renderRecord (recUpdate
              [("server_ts", t1), ("code_len", natToString (strLen c1)), ("kind", "submit")] e1)))
          (submitPath sid pid ++ "/final_code.html") c2)
        (submitPath sid pid ++ "/meta.json")).isSome := by
      rw [getKey_setKey_ne _ _ _ _ (Ne.symm hne), getKey_setKey_self]
      rfl
    rw [keys_setKey_of_isSome _ _ _ hmj, keys_setKey_of_isSome _ _ _ hfc]

/-- C8: the notebook diff marks position `i` modified exactly when `i`
falls inside both lists and the two sources differ as strings; when the
current list is at least as long, `added_cells` is the length surplus and
`removed_cells` is zero (and symmetrically), so out-of-range positions are
pure additions/removals and never modifications; `total_changes` is the
sum `added + removed + |modified|`; on the spec's example
`["a","b"] → ["a","x","c"]` the result is
`modified=[1], added=1, removed=0, total=2`. -/
theorem compute_nb_diff_spec :
    (∀ (prev curr : List Record) (i : Nat),
      i ∈ (computeNbDiff prev curr).modified_cells ↔
        (i < min prev.length curr.length ∧
          cellSource (prev.getD i []) ≠ cellSource (curr.getD i []))) ∧
    (∀ prev curr : List Record, prev.length ≤ curr.length →
      (computeNbDiff prev curr).added_cells = curr.length - prev.length ∧
      (computeNbDiff prev curr).removed_cells = 0) ∧
    (∀ prev curr : List Record, curr.length ≤ prev.length →
      (computeNbDiff prev curr).removed_cells = prev.length - curr.length ∧
      (computeNbDiff prev curr).added_cells = 0) ∧
    (∀ prev curr : List Record,
      (computeNbDiff prev curr).total_changes
        = (computeNbDiff prev curr).added_cells + (computeNbDiff prev curr).removed_cells
          + (computeNbDiff prev curr).modified_cells.length) ∧
    computeNbDiff [[("source", "a")], [("source", "b")]]
        [[("source", "a")], [("source", "x")], [("source", "c")]]
      = ⟨1, 0, [1], 2⟩ := by
  refine ⟨?_, ?_, ?_, ?_, by decide⟩
  · intro prev curr i
    simp [computeNbDiff, List.mem_filter, List.mem_range, and_comm]
  · intro prev curr h
    simp [computeNbDiff, Nat.sub_eq_zero_of_le h]
  · intro prev curr h
    simp [computeNbDiff, Nat.sub_eq_zero_of_le h]
  · intro prev curr
    rfl

/-- C8 witness: the general clauses instantiated on the spec's example. -/
theorem compute_nb_diff_spec_witness :
    (1 ∈ (computeNbDiff [[("source", "a")], [("source", "b")]]
        [[("source", "a")], [("source", "x")], [("source", "c")]]).modified_cells ↔
      (1 < min 2 3 ∧ ("b" : String) ≠ "x")) ∧
    (computeNbDiff [[("source", "a")], [("source", "b")]]
        [[("source", "a")], [("source", "x")], [("source", "c")]]).added_cells = 3 - 2 := by
  constructor
  · have := compute_nb_diff_spec.1 [[("source", "a")], [("source", "b")]]
      [[("source", "a")], [("source", "x")], [("source", "c")]] 1
    simpa [cellSource, recGet] using this
  · exact (compute_nb_diff_spec.2.1 [[("source", "a")], [("source", "b")]]
      [[("source", "a")], [("source", "x")], [("source", "c")]] (by decide)).1

/-- C3 (counterexample): the claim says a failure while executing cell `i`
is caught in that cell's stderr and never aborts later cells.  A cell whose
source does not parse refutes this: `ast.parse` raises `SyntaxError`, the
`except SyntaxError` fallback re-runs `exec(code)`, which raises
`SyntaxError` again inside the handler where the sibling
`except Exception` cannot catch it — `run_dv_cells` aborts, returning no
per-cell results, and the following (perfectly runnable) cell never
executes. -/
theorem run_many_parse_error_aborts :
    runDvCells [Cell.parseError "invalid syntax",
        Cell.parsed [Stmt.printS (Expr.lit (Val.vStr "ok"))] none]
      = .error "invalid syntax" := by
  decide

/-- C3 (amended): for cells that parse, `run_many` never aborts: every
runtime failure in cell `i` is caught into that cell's stderr and each of
the `n` cells yields a result; the namespace is shared, so an assignment
made in cell `i` before its failure is still visible in cell `i+1` — shown
concretely by `x = 1; raise` followed by `print(x)`, where cell 1 reports
`Code Error: boom` and cell 2 still prints `1`. -/
theorem run_many_runtime_error_isolated :
    (∀ (s : SBState) (cells : List Cell),
      (∀ c ∈ cells, c.isParsed = true) →
      ∃ rs, runCells s cells = .ok rs ∧ rs.length = cells.length) ∧
    runDvCells
        [Cell.parsed [Stmt.assign "x" (Expr.lit (Val.vInt 1)), Stmt.raiseS "boom"] none,
         Cell.parsed [Stmt.printS (Expr.var "x")] none]
      = .ok [⟨"", "Code Error: boom", none⟩, ⟨"1\n", "", none⟩] := by
  constructor
  · intro s cells
    induction cells generalizing s with
    | nil => exact fun _ => ⟨[], rfl, rfl⟩
    | cons c cs ih =>
      intro h
      cases c with
      | parseError m =>
        have := h (Cell.parseError m) (List.mem_cons_self _ _)
        simp [Cell.isParsed] at this
      | parsed stmts lastE =>
        obtain ⟨r, s1, hr⟩ := runCellBody_parsed_isOk s stmts lastE
        obtain ⟨rs, hrs, hlen⟩ := ih s1 (fun d hd => h d (List.mem_cons_of_mem _ hd))
        refine ⟨r :: rs, ?_, by simp [hlen]⟩
        simp [runCells, hr, hrs]
  · decide

/-- C4: whenever execution of a code string raises — after a clean prefix
`pre`, at statement `bad` raising message `m` — `run_single` returns
`plot = None`, stderr `"Code Error: " ++ m`, and a stdout equal to exactly
what the prefix printed before the exception point (later statements and a
trailing expression contribute nothing); a string that fails to parse
behaves the same with empty stdout, since `exec` raises the
`SyntaxError` before anything runs. -/
theorem run_single_exception :
    (∀ (pre : List Stmt) (bad : Stmt) (rest : List Stmt) (lastE : Option Expr) (m : String),
      (execStmts ⟨[], false⟩ pre).err = none →
      (execStmt (execStmts ⟨[], false⟩ pre).st bad).err = some m →
      runDvCode (.parsed (pre ++ bad :: rest) lastE)
        = ((execStmts ⟨[], false⟩ pre).out, "Code Error: " ++ m, none)) ∧
    (∀ m : String, runDvCode (.parseError m) = ("", "Code Error: " ++ m, none)) := by
  constructor
  · intro pre bad rest lastE m hpre hbad
    have key : ∀ rest2 : List Stmt,
        execStmts ⟨[], false⟩ (pre ++ bad :: rest2)
          = ⟨(execStmts ⟨[], false⟩ pre).out,
             (execStmt (execStmts ⟨[], false⟩ pre).st bad).st, some m⟩ := by
      intro rest2
      have hcons : execStmts (execStmts ⟨[], false⟩ pre).st (bad :: rest2)
          = execStmt (execStmts ⟨[], false⟩ pre).st bad := by
        simp only [execStmts]
        rw [hbad]
      have hbody := execStmts_append ⟨[], false⟩ pre (bad :: rest2)
      rw [hcons] at hbody
      simp only [hpre] at hbody
      rw [execStmt_out_of_err _ _ _ hbad, str_append_empty, hbad] at hbody
      exact hbody
    have hsplit : (pre ++ bad :: rest)
        ++ (match lastE with | some e => [Stmt.exprS e] | none => [])
      = pre ++ bad :: (rest ++ (match lastE with | some e => [Stmt.exprS e] | none => [])) := by
      simp
    simp only [runDvCode, hsplit, key]
  · intro m
    rfl

/-- C4 witness: `print("hi"); raise Exception("boom"); print("later")`
yields stdout `"hi\n"` (preserved up to the failure point), stderr
`"Code Error: boom"`, and no plot. -/
theorem run_single_exception_witness :
    runDvCode (Cell.parsed [Stmt.printS (Expr.lit (Val.vStr "hi")), Stmt.raiseS "boom",
        Stmt.printS (Expr.lit (Val.vStr "later"))] none)
      = ("hi\n", "Code Error: boom", none) := by
  have hl : [Stmt.printS (Expr.lit (Val.vStr "hi")), Stmt.raiseS "boom",
        Stmt.printS (Expr.lit (Val.vStr "later"))]
      = [Stmt.printS (Expr.lit (Val.vStr "hi"))] ++ Stmt.raiseS "boom"
          :: [Stmt.printS (Expr.lit (Val.vStr "later"))] := rfl
  rw [hl, run_single_exception.1 [Stmt.printS (Expr.lit (Val.vStr "hi"))] (Stmt.raiseS "boom")
    [Stmt.printS (Expr.lit (Val.vStr "later"))] none "boom" (by decide) (by decide)]
  decide

/-- C9: when a cell's body runs cleanly and its trailing bare expression
evaluates to `v`, the notebook auto-display appends nothing to stdout when
`v` is `None` and otherwise appends the rendering of `v` (DataFrames and
Series via `to_string`, other values via `repr`) plus a newline. -/
theorem run_many_auto_display (s : SBState) (stmts : List Stmt) (e : Expr) (v : Val)
    (hbody : (execStmts { s with fig := false } stmts).err = none)
    (hval : evalExpr (execStmts { s with fig := false } stmts).st.ns e = .ok v) :
    runCellBody s (.parsed stmts (some e))
      = .ok (⟨(execStmts { s with fig := false } stmts).out
              ++ (if v = .pyNone then "" else displayVal v ++ "\n"),
             "", capturePlot (execStmts { s with fig := false } stmts).st⟩,
            (execStmts { s with fig := false } stmts).st) := by
  simp [runCellBody, hbody, hval]

/-- C9 witness: a cell ending in a bare `None` expression prints only its
body output, while a cell ending in a bare DataFrame expression prints the
full rendered table. -/
theorem run_many_auto_display_witness :
    runCellBody ⟨[], false⟩
        (Cell.parsed [Stmt.printS (Expr.lit (Val.vStr "body"))] (some (Expr.lit Val.pyNone)))
      = .ok (⟨"body\n", "", none⟩, ⟨[], false⟩) ∧
    runCellBody ⟨[], false⟩
        (Cell.parsed [] (some (Expr.lit (Val.vDataFrame [["a", "b"], ["1", "2"]]))))
      = .ok (⟨"a b\n1 2\n", "", none⟩, ⟨[], false⟩) := by
  constructor
  · rw [run_many_auto_display ⟨[], false⟩ [Stmt.printS (Expr.lit (Val.vStr "body"))]
      (Expr.lit Val.pyNone) Val.pyNone (by decide) (by decide)]
    decide
  · rw [run_many_auto_display ⟨[], false⟩ [] (Expr.lit (Val.vDataFrame [["a", "b"], ["1", "2"]]))
      (Val.vDataFrame [["a", "b"], ["1", "2"]]) (by decide) (by decide)]
    decide

/-- C10: when the latest prior FE run snapshot's stored code body is the
empty string (or when there is no predecessor at all), `snapshot_fe` takes
the `if prev_code:` false branch — predecessor presence is tested by the
truthiness of the code string, not snapshot existence — so no diff record
is written and the store transition is exactly the one of the
no-predecessor case: just the new snapshot's writes. -/
theorem snapshot_fe_empty_prev_skips_diff (b : Backend) (st : Store)
    (sid pid code now : String)
    (h : latestRunCode b st sid pid = some "" ∨ latestRunCode b st sid pid = none) :
    snapshotFe b st sid pid code now
      = ((saveRunSnapshot b st sid pid code now none).fst, false) := by
  rcases h with h | h <;> simp [snapshotFe, h]

/-- C10 witness: a store whose only prior snapshot `run_0001` holds the
empty code body (object-store backend, where the predecessor is actually
found): `snapshot_fe` writes the new snapshot and no diff. -/
theorem snapshot_fe_empty_prev_skips_diff_witness :
    latestRunCode .s3 [("sessions/s/problems/p/runs/run_0001/code.html", "")] "s" "p"
      = some "" ∧
    snapshotFe .s3 [("sessions/s/problems/p/runs/run_0001/code.html", "")] "s" "p"
        "newcode" "t2"
      = ((saveRunSnapshot .s3 [("sessions/s/problems/p/runs/run_0001/code.html", "")]
          "s" "p" "newcode" "t2" none).fst, false) :=
  ⟨by decide,
   snapshot_fe_empty_prev_skips_diff .s3 [("sessions/s/problems/p/runs/run_0001/code.html", "")]
     "s" "p" "newcode" "t2" (Or.inl (by decide))⟩

end Eduko
